import Mathlib

/-!
Shallow embedding of the 7grid match backend: the board rules engine
( `_apply_roll` in `routers/match_routes.py` ), the turn-selection and
forfeit-skip logic of `roll_dice` / `forfeit_match` / `_auto_advance_if_needed`,
the settlement routine `distribute_prize` ( `routers/wallet_utils.py` ),
the join scan of `create_or_wait_match`, and the gating of the autonomous
bot roll loop ( `routers/smart_agent_worker.py` ).
-/

namespace SevenGrid

/-- Python truthiness of an optional integer: `None` and `0` are falsy. -/
def pyTruthy : Option Int → Bool
  | none => false
  | some v => v != 0

/-- Python `a or b` on optional integers. -/
def pyOr (a b : Option Int) : Option Int := if pyTruthy a then a else b

/-- The flag dictionary returned by `_apply_roll`. -/
structure RollFlags where
  reverse : Bool
  spawn : Bool
  actor : Nat
  lastRoll : Nat
  spawned : List Bool
deriving DecidableEq, Repr

/-- Full result of `_apply_roll`: updated positions, next turn, optional winner, flags. -/
structure RollResult where
  positions : List Nat
  nextTurn : Nat
  winner : Option Nat
  flags : RollFlags
deriving DecidableEq, Repr

/-- One iteration of the capture loop of `_apply_roll` (rule 6): opponent `idx`,
if spawned and standing on the actor's cell, is sent back to cell 0. -/
def captureStep (spawned : List Bool) (p : Nat) (positions : List Nat) (idx : Nat) : List Nat :=
  if idx = p then positions
  else if spawned.getD idx false = true ∧ positions.getD idx 0 = positions.getD p 0 then
    positions.set idx 0
  else positions

/-- The capture loop of `_apply_roll`: `for idx in range(num_players)`. -/
def captureAll (spawned : List Bool) (p numPlayers : Nat) (positions : List Nat) : List Nat :=
  (List.range numPlayers).foldl (captureStep spawned p) positions

/-- Transcription of `_apply_roll` from `routers/match_routes.py`.
Cells are 0..7; rule order: spawn-on-1, danger cell 3, overshoot, exact win at 7,
normal move with capture. Turn always advances round-robin except on a win,
where the current turn is returned unchanged. -/
def apply_roll (positions : List Nat) (currentTurn roll numPlayers : Nat)
    (spawned : List Bool) : RollResult :=
  let p := currentTurn
  let old := positions.getD p 0
  let newPos := old + roll
  if spawned.getD p false = false then
    if roll = 1 then
      { positions := positions.set p 0
        nextTurn := (p + 1) % numPlayers
        winner := none
        flags := { reverse := false, spawn := true, actor := p, lastRoll := roll,
                   spawned := spawned.set p true } }
    else
      { positions := positions.set p 0
        nextTurn := (p + 1) % numPlayers
        winner := none
        flags := { reverse := false, spawn := false, actor := p, lastRoll := roll,
                   spawned := spawned } }
  else if newPos = 3 then
    { positions := positions.set p 0
      nextTurn := (p + 1) % numPlayers
      winner := none
      flags := { reverse := true, spawn := false, actor := p, lastRoll := roll,
                 spawned := spawned } }
  else if 7 < newPos then
    { positions := positions.set p old
      nextTurn := (p + 1) % numPlayers
      winner := none
      flags := { reverse := false, spawn := false, actor := p, lastRoll := roll,
                 spawned := spawned } }
  else if newPos = 7 then
    { positions := positions.set p newPos
      nextTurn := p
      winner := some p
      flags := { reverse := false, spawn := false, actor := p, lastRoll := roll,
                 spawned := spawned } }
  else
    let positions1 := positions.set p newPos
    let positions2 := captureAll spawned p numPlayers positions1
    { positions := positions2
      nextTurn := (p + 1) % numPlayers
      winner := none
      flags := { reverse := false, spawn := false, actor := p, lastRoll := roll,
                 spawned := spawned } }

/-- The active (occupied, non-forfeited) slot indices of a match, as computed in
`roll_dice`, `forfeit_match` and `_auto_advance_if_needed`:
`[i for i, uid in enumerate(slots[:num_players]) if uid and uid not in forfeited]`. -/
def activeIndices (slots : List (Option Int)) (forfeited : List Int) (numPlayers : Nat) :
    List Nat :=
  (List.range numPlayers).filter (fun i =>
    match slots.getD i none with
    | none => false
    | some uid => uid != 0 && !(forfeited.contains uid))

/-- Fuel-indexed body of the check-then-increment forfeiture-skip loop of
`roll_dice` and `_auto_advance_if_needed`:
`for _ in range(num_players): if t in active: break; t = (t+1) % n`. -/
def skipForfeitGo (active : List Nat) (n : Nat) : Nat → Nat → Nat
  | 0, t => t
  | fuel + 1, t => if t ∈ active then t else skipForfeitGo active n fuel ((t + 1) % n)

/-- The forfeiture-skip loop with its source fuel of `num_players` iterations. -/
def skipForfeit (active : List Nat) (n t : Nat) : Nat :=
  skipForfeitGo active n n t

/-- Fuel-indexed body of the increment-then-check skip loop of `forfeit_match`:
`for _ in range(expected_players): nxt = (nxt+1) % n; if nxt in active: break`. -/
def forfeitGo (active : List Nat) (n : Nat) : Nat → Nat → Nat
  | 0, t => t
  | fuel + 1, t =>
    if (t + 1) % n ∈ active then (t + 1) % n else forfeitGo active n fuel ((t + 1) % n)

/-- The new current turn committed by `forfeit_match` when the match continues:
jump to the first active index when the current one is inactive, otherwise
advance past forfeited indices. -/
def forfeitNewTurn (active : List Nat) (n curr : Nat) : Nat :=
  if curr ∈ active then forfeitGo active n n curr else active.headD 0

/-- Python `list.index` over the slot list: index of the first slot equal to `some v`. -/
def pyIndex (l : List (Option Int)) (v : Int) : Nat :=
  match l with
  | [] => 0
  | x :: xs => if x = some v then 0 else pyIndex xs v + 1

/-- Outcome of the validation and turn-fix section of `roll_dice`
(`match_routes.py`, before the dice are thrown). `errNotYourTurn s` and
`ok a s` carry the current-turn value `s` persisted by the turn-fix commit. -/
inductive RollGate where
  | errNoActive
  | errNotYourMatch
  | errNotYourTurn (persistedTurn : Nat)
  | ok (actor : Nat) (persistedTurn : Nat)
deriving DecidableEq, Repr

/-- Transcription of the pre-roll section of `roll_dice`: active-slot check,
participant check, retarget of an inactive stored turn (committed), and the
out-of-turn rejection. -/
def rollTurnCheck (p1 p2 p3 : Option Int) (forfeited : List Int) (n : Nat)
    (storedTurn : Option Nat) (callerId : Int) : RollGate :=
  let slots : List (Option Int) := [p1, p2, p3]
  let active := activeIndices slots forfeited n
  if active = [] then RollGate.errNoActive
  else if some callerId ∉ slots then RollGate.errNotYourMatch
  else
    let curr0 := storedTurn.getD 0
    let curr := if curr0 ∈ active then curr0 else active.headD 0
    let meIdx := pyIndex slots callerId
    if meIdx ≠ curr then RollGate.errNotYourTurn curr
    else RollGate.ok meIdx curr

/-- A row of the `stakes` reference table, as read by `_get_stake_rule_for_match`. -/
structure StakeRule where
  stakeAmount : Int
  entryFee : Int
  winnerPayout : Int
  players : Nat
  label : String
deriving DecidableEq, Repr

/-- The financial effect of a successful `distribute_prize` call: winner id,
amount credited to the winner, recorded system fee, and the account credited
with the fee (when a fee credit is made). -/
structure SettleOutcome where
  winnerId : Int
  prize : Int
  systemFee : Int
  feeRecipient : Option Int
deriving DecidableEq, Repr

/-- The slot list of a match truncated to the rule's player count:
`[match.p1_user_id, match.p2_user_id, match.p3_user_id][:expected_players]`. -/
def slotsOf (p1 p2 p3 : Option Int) (players : Nat) : List (Option Int) :=
  ([p1, p2, p3].take players)

/-- Occupied slots: `{uid for uid in slots if uid is not None}` (used for membership only). -/
def participantsOf (p1 p2 p3 : Option Int) (players : Nat) : List Int :=
  (slotsOf p1 p2 p3 players).filterMap id

/-- Paying human occupants:
`[uid for uid in slots if uid is not None and uid > 0]`. -/
def activeIdsOf (p1 p2 p3 : Option Int) (players : Nat) : List Int :=
  (participantsOf p1 p2 p3 players).filter (fun u => decide (0 < u))

/-- The collected pot of `distribute_prize`: `entry_fee * len(active_ids)`. -/
def potOf (rule : StakeRule) (p1 p2 p3 : Option Int) : Int :=
  rule.entryFee * ((activeIdsOf p1 p2 p3 rule.players).length : Int)

/-- Merchant resolution of `distribute_prize`: per-match merchant falling back to
the global merchant, each rejected while it occupies a slot of the match. -/
def resolveFeeRecipient (matchMerchant fallback : Option Int) (participants : List Int) :
    Option Int :=
  let mid0 := pyOr matchMerchant fallback
  match mid0 with
  | none => none
  | some mid =>
    if mid ∈ participants then
      match fallback with
      | some fid => if fid ≠ 0 ∧ fid ∉ participants then some fid else none
      | none => none
    else some mid

/-- The arithmetic block of `distribute_prize` once the winner is validated:
pot, capped prize, fee, and fee credit target (credited only when the fee is
positive and the resolved merchant id is truthy). -/
def settleOf (rule : StakeRule) (p1 p2 p3 matchMerchant fallback : Option Int)
    (w : Int) : SettleOutcome :=
  let pot := potOf rule p1 p2 p3
  let prize := min rule.winnerPayout pot
  let fee := pot - prize
  let mid1 := resolveFeeRecipient matchMerchant fallback (participantsOf p1 p2 p3 rule.players)
  { winnerId := w
    prize := prize
    systemFee := fee
    feeRecipient := if 0 < fee ∧ pyTruthy mid1 = true then mid1 else none }

/-- Transcription of `distribute_prize` from `routers/wallet_utils.py`.
Inputs: the stake-rule lookup result, the three slot columns, the per-match
merchant column, the cached global merchant id, and the winner index. The
database side effects (winner balance credit of `prize`, fee credit of
`systemFee` to `feeRecipient` when present, ledger rows) are summarised by the
returned `SettleOutcome`. -/
def distribute_prize (ruleQ : Option StakeRule)
    (p1 p2 p3 matchMerchant fallback : Option Int) (winnerIdx : Int) :
    Except String SettleOutcome :=
  match ruleQ with
  | none => Except.error "Missing stake rule"
  | some rule =>
    let slots := slotsOf p1 p2 p3 rule.players
    let activeIds := activeIdsOf p1 p2 p3 rule.players
    if winnerIdx < 0 ∨ (slots.length : Int) ≤ winnerIdx then
      Except.error "Invalid winner index"
    else
      match slots.getD winnerIdx.toNat none with
      | none => Except.error "Winner is not an active human"
      | some winnerId =>
        if winnerId ∈ activeIds then
          Except.ok (settleOf rule p1 p2 p3 matchMerchant fallback winnerId)
        else Except.error "Winner is not an active human"

/-- Match status vocabulary of the durable record. -/
inductive MStatus where
  | waiting
  | active
  | finished
  | abandoned
deriving DecidableEq, Repr

/-- The durable columns of a match consulted by the join scan. -/
structure WaitingMatch where
  status : MStatus
  stakeAmount : Int
  numPlayers : Nat
  p1 : Option Int
  p2 : Option Int
  p3 : Option Int
deriving DecidableEq, Repr

/-- SQL `col != v` under three-valued logic: a NULL column never matches. -/
def sqlNeq (col : Option Int) (v : Int) : Bool :=
  match col with
  | none => false
  | some x => x != v

/-- The WHERE clause of the join scan in `create_or_wait_match`
(`match_routes.py`): WAITING status, matching stake and player count,
`p1_user_id != caller`, and an empty slot (`p2` for 2-player matches,
`p2` or `p3` otherwise). -/
def joinFilter (m : WaitingMatch) (stake : Int) (nPlayers : Nat) (callerId : Int) : Bool :=
  decide (m.status = MStatus.waiting) && decide (m.stakeAmount = stake) &&
  decide (m.numPlayers = nPlayers) && sqlNeq m.p1 callerId &&
  (if nPlayers = 2 then decide (m.p2 = none)
   else (decide (m.p2 = none) || decide (m.p3 = none)))

/-- The slot assignment performed by `create_or_wait_match` on a selected
WAITING match: fill `p2` then `p3`; the match turns ACTIVE once the last
declared slot fills; `none` models the "Match already full" rejection. -/
def joinSeat (m : WaitingMatch) (nPlayers : Nat) (callerId : Int) : Option WaitingMatch :=
  if nPlayers = 2 then
    some { m with p2 := some callerId, status := MStatus.active }
  else
    if pyTruthy m.p2 = false then
      some { m with p2 := some callerId }
    else if pyTruthy m.p3 = false then
      some { m with p3 := some callerId, status := MStatus.active }
    else none

/-- The fixed agent-pool account ids of `smart_agent_worker.py` / `agent_pool.py`. -/
def AGENT_USER_IDS : List Int :=
  [10001, 10002, 10003, 10004, 10005,
   10006, 10007, 10008, 10009, 10010,
   10011, 10012, 10013, 10014, 10015,
   10016, 10017, 10018, 10019, 10020]

/-- Gating of one match inside `_auto_roll_worker` (`smart_agent_worker.py`):
`true` exactly when the worker issues a roll for this match. The worker scans
ACTIVE matches, skips matches without a human (positive, non-agent) occupant,
skips out-of-range turns, and rolls only when the current-turn seat holds an
agent-pool account. -/
def botActs (status : MStatus) (p1 p2 p3 : Option Int) (numPlayers : Nat)
    (currentTurn : Option Int) : Bool :=
  if status ≠ MStatus.active then false
  else
    let slots : List (Option Int) := [p1, p2, p3].take numPlayers
    let hasHuman := slots.any (fun u =>
      match u with
      | some v => decide (0 < v) && !(AGENT_USER_IDS.contains v)
      | none => false)
    if !hasHuman then false
    else if slots.isEmpty then false
    else
      let turn : Int := currentTurn.getD 0
      if decide (turn < 0) || decide ((slots.length : Int) ≤ turn) then false
      else
        match slots.getD turn.toNat none with
        | some u => AGENT_USER_IDS.contains u
        | none => false

/-! ## Helper lemmas -/

lemma sqlNeq_true {col : Option Int} {v : Int} (h : sqlNeq col v = true) : col ≠ some v := by
  cases col <;> simp_all [sqlNeq]

lemma headD_mem (l : List Nat) (h : l ≠ []) : l.headD 0 ∈ l := by
  cases l with
  | nil => exact absurd rfl h
  | cons x xs => exact List.mem_cons_self x xs

lemma activeIndices_lt (slots : List (Option Int)) (forfeited : List Int) (n : Nat) :
    ∀ a ∈ activeIndices slots forfeited n, a < n := by
  intro a ha
  exact List.mem_range.mp (List.mem_filter.mp ha).1

lemma exists_hit (n t a : Nat) (ht : t < n) (ha : a < n) : ∃ k < n, (t + k) % n = a := by
  rcases le_or_lt t a with h | h
  · exact ⟨a - t, by omega, by rw [show t + (a - t) = a by omega, Nat.mod_eq_of_lt ha]⟩
  · refine ⟨a + n - t, by omega, ?_⟩
    rw [show t + (a + n - t) = a + n by omega, Nat.add_mod_right, Nat.mod_eq_of_lt ha]

lemma skipForfeitGo_mem (active : List Nat) (n : Nat) :
    ∀ fuel t, t < n → (∃ k < fuel, (t + k) % n ∈ active) →
      skipForfeitGo active n fuel t ∈ active := by
  intro fuel
  induction fuel with
  | zero =>
    rintro t ht ⟨k, hk, _⟩
    omega
  | succ fuel ih =>
    rintro t ht ⟨k, hk, hmem⟩
    rw [skipForfeitGo]
    by_cases hta : t ∈ active
    · simp [hta]
    · simp only [hta, if_false]
      refine ih ((t + 1) % n) (Nat.mod_lt _ (by omega)) ?_
      rcases k with _ | k
      · rw [Nat.add_zero, Nat.mod_eq_of_lt ht] at hmem
        exact absurd hmem hta
      · refine ⟨k, by omega, ?_⟩
        rw [Nat.mod_add_mod, show t + 1 + k = t + (k + 1) by omega]
        exact hmem

lemma skipForfeit_mem (active : List Nat) (n t a : Nat) (ht : t < n)
    (ha : a ∈ active) (han : a < n) : skipForfeit active n t ∈ active := by
  obtain ⟨k, hk, hke⟩ := exists_hit n t a ht han
  exact skipForfeitGo_mem active n n t ht ⟨k, hk, hke ▸ ha⟩

lemma forfeitGo_mem (active : List Nat) (n : Nat) :
    ∀ fuel t, (∃ k, 1 ≤ k ∧ k ≤ fuel ∧ (t + k) % n ∈ active) →
      forfeitGo active n fuel t ∈ active := by
  intro fuel
  induction fuel with
  | zero =>
    rintro t ⟨k, h1, h2, _⟩
    omega
  | succ fuel ih =>
    rintro t ⟨k, h1, h2, hmem⟩
    rw [forfeitGo]
    by_cases hta : (t + 1) % n ∈ active
    · simp [hta]
    · simp only [hta, if_false]
      refine ih ((t + 1) % n) ?_
      rcases k with _ | k
      · omega
      rcases k with _ | k
      · exact absurd hmem hta
      · refine ⟨k + 1, by omega, by omega, ?_⟩
        rw [Nat.mod_add_mod, show t + 1 + (k + 1) = t + (k + 1 + 1) by omega]
        exact hmem

lemma forfeitNewTurn_mem (active : List Nat) (n curr : Nat) (hcurr : curr < n)
    (a : Nat) (ha : a ∈ active) : forfeitNewTurn active n curr ∈ active := by
  have hn : 0 < n := by omega
  unfold forfeitNewTurn
  by_cases hc : curr ∈ active
  · simp only [hc, if_true]
    refine forfeitGo_mem active n n curr ⟨n, hn, Nat.le_refl n, ?_⟩
    rw [Nat.add_mod_right, Nat.mod_eq_of_lt hcurr]
    exact hc
  · simp only [hc, if_false]
    exact headD_mem active (by rintro rfl; exact (List.not_mem_nil a) ha)

lemma apply_roll_nextTurn_of_winner_none (positions : List Nat) (p roll n : Nat)
    (spawned : List Bool) (h : (apply_roll positions p roll n spawned).winner = none) :
    (apply_roll positions p roll n spawned).nextTurn = (p + 1) % n := by
  simp only [apply_roll] at h ⊢
  split_ifs at h ⊢ <;> simp_all

lemma getD_set_ne {α : Type} (l : List α) (d : α) (p i : Nat) (v : α) (h : p ≠ i) :
    (l.set p v).getD i d = l.getD i d := by
  induction l generalizing p i with
  | nil => rfl
  | cons x xs ih =>
    cases p with
    | zero =>
      cases i with
      | zero => omega
      | succ j => rfl
    | succ q =>
      cases i with
      | zero => rfl
      | succ j =>
        simp only [List.set_cons_succ, List.getD_cons_succ]
        exact ih q j (by omega)

lemma getD_set_self {α : Type} (l : List α) (p : Nat) (v d : α) :
    (l.set p v).getD p d = if p < l.length then v else d := by
  induction l generalizing p with
  | nil => simp
  | cons x xs ih =>
    cases p with
    | zero => simp
    | succ q =>
      simp only [List.set_cons_succ, List.getD_cons_succ, List.length_cons]
      rw [ih q]
      simp

lemma getD_set_le (l : List Nat) (p v : Nat) (hb : ∀ i, l.getD i 0 ≤ 7) (hv : v ≤ 7) :
    ∀ i, (l.set p v).getD i 0 ≤ 7 := by
  intro i
  by_cases h : p = i
  · subst h
    rw [getD_set_self]
    split <;> omega
  · rw [getD_set_ne l 0 p i v h]
    exact hb i

lemma captureStep_getD (spawned : List Bool) (p : Nat) (positions : List Nat) (idx i : Nat) :
    (captureStep spawned p positions idx).getD i 0 = positions.getD i 0 ∨
    (captureStep spawned p positions idx).getD i 0 = 0 := by
  unfold captureStep
  split_ifs with h1 h2
  · exact Or.inl rfl
  · by_cases hip : idx = i
    · subst hip
      right
      rw [getD_set_self]
      split <;> rfl
    · exact Or.inl (getD_set_ne positions 0 idx i 0 hip)
  · exact Or.inl rfl

lemma captureAll_getD (spawned : List Bool) (p numPlayers : Nat) (positions : List Nat)
    (i : Nat) :
    (captureAll spawned p numPlayers positions).getD i 0 = positions.getD i 0 ∨
    (captureAll spawned p numPlayers positions).getD i 0 = 0 := by
  unfold captureAll
  generalize List.range numPlayers = l
  induction l generalizing positions with
  | nil => exact Or.inl rfl
  | cons x xs ih =>
    simp only [List.foldl_cons]
    rcases ih (captureStep spawned p positions x) with h | h
    · rcases captureStep_getD spawned p positions x i with h2 | h2
      · exact Or.inl (h.trans h2)
      · exact Or.inr (h.trans h2)
    · exact Or.inr h

/-- Case analysis of the positions returned by `_apply_roll`: the actor's cell is
set to 0, kept, set to the (bounded) new cell, or set to the new cell followed by
the capture loop. -/
lemma apply_roll_positions_cases (positions : List Nat) (p roll n : Nat)
    (spawned : List Bool) :
    (apply_roll positions p roll n spawned).positions = positions.set p 0 ∨
    (apply_roll positions p roll n spawned).positions =
      positions.set p (positions.getD p 0) ∨
    ((apply_roll positions p roll n spawned).positions =
        positions.set p (positions.getD p 0 + roll) ∧ positions.getD p 0 + roll ≤ 7) ∨
    ((apply_roll positions p roll n spawned).positions =
        captureAll spawned p n (positions.set p (positions.getD p 0 + roll)) ∧
      positions.getD p 0 + roll ≤ 7) := by
  simp only [apply_roll]
  split_ifs with h1 h2 h3 h4 h5 <;> simp_all

/-- Inversion of a successful settlement: the outcome is `settleOf` at the
validated winner id, which sits in the slot list and is a positive occupant. -/
lemma distribute_prize_ok (rule : StakeRule) (p1 p2 p3 mm fb : Option Int) (widx : Int)
    (o : SettleOutcome)
    (h : distribute_prize (some rule) p1 p2 p3 mm fb widx = Except.ok o) :
    ∃ w, w ∈ activeIdsOf p1 p2 p3 rule.players ∧ o = settleOf rule p1 p2 p3 mm fb w := by
  unfold distribute_prize at h
  dsimp only at h
  split at h
  · exact absurd h (by simp)
  · split at h
    · exact absurd h (by simp)
    · rename_i w hw
      split_ifs at h with hmem
      injection h with h2
      exact ⟨w, hmem, h2.symm⟩

/-- Any id produced by the merchant resolution step is not a participant. -/
lemma resolveFeeRecipient_not_mem (mm fb : Option Int) (parts : List Int) (r : Int)
    (h : resolveFeeRecipient mm fb parts = some r) : r ∉ parts := by
  unfold resolveFeeRecipient at h
  cases hm : pyOr mm fb with
  | none => rw [hm] at h; exact absurd h (by simp)
  | some mid =>
    rw [hm] at h
    dsimp only at h
    by_cases hmem : mid ∈ parts
    · rw [if_pos hmem] at h
      cases fb with
      | none => exact absurd h (by simp)
      | some fid =>
        dsimp only at h
        split_ifs at h with hc
        injection h with h2
        exact h2 ▸ hc.2
    · rw [if_neg hmem] at h
      injection h with h2
      exact h2 ▸ hmem

/-! ## Claim theorems -/

/-- C6: when the acting slot is spawned and its position plus the roll equals
exactly 7, `_apply_roll` sets the winner to the acting slot, leaves the reverse
and spawn flags false, performs no capture (only the actor's cell changes, to 7),
and returns the turn index equal to the acting slot. -/
theorem C6_exact_seven_wins (positions : List Nat) (p roll n : Nat) (spawned : List Bool)
    (hs : spawned.getD p false = true) (hsum : positions.getD p 0 + roll = 7) :
    apply_roll positions p roll n spawned =
      { positions := positions.set p 7
        nextTurn := p
        winner := some p
        flags := { reverse := false, spawn := false, actor := p, lastRoll := roll,
                   spawned := spawned } } := by
  simp only [apply_roll, hs, hsum]
  norm_num

/-- Witness for C6 at the spec's example `positions=[5,0], spawned=[true,true],
turn=0, roll=2`: new cell 7, winner slot 0. -/
theorem C6_witness :
    [true, true].getD 0 false = true ∧ [5, 0].getD 0 0 + 2 = 7 ∧
    apply_roll [5, 0] 0 2 2 [true, true] =
      { positions := [5, 0].set 0 7
        nextTurn := 0
        winner := some 0
        flags := { reverse := false, spawn := false, actor := 0, lastRoll := 2,
                   spawned := [true, true] } } :=
  ⟨rfl, rfl, C6_exact_seven_wins [5, 0] 0 2 2 [true, true] rfl rfl⟩

/-- C7: when the acting slot is spawned and its position plus the roll equals
exactly 3 (the danger cell), `_apply_roll` resets the actor's cell to 0, keeps
the spawned flags unchanged (the actor stays spawned), sets the reverse flag,
produces no winner, and advances the turn to `(actor + 1) % num_players`. -/
theorem C7_danger_cell_resets (positions : List Nat) (p roll n : Nat) (spawned : List Bool)
    (hs : spawned.getD p false = true) (hsum : positions.getD p 0 + roll = 3) :
    apply_roll positions p roll n spawned =
      { positions := positions.set p 0
        nextTurn := (p + 1) % n
        winner := none
        flags := { reverse := true, spawn := false, actor := p, lastRoll := roll,
                   spawned := spawned } } := by
  simp only [apply_roll, hs, hsum]
  norm_num

/-- Witness for C7 at the spec's example `positions=[1,0], spawned=[true,false],
turn=0, roll=2`: new cell 3, positions reset, reverse flag, next turn 1. -/
theorem C7_witness :
    [true, false].getD 0 false = true ∧ [1, 0].getD 0 0 + 2 = 3 ∧
    apply_roll [1, 0] 0 2 2 [true, false] =
      { positions := [1, 0].set 0 0
        nextTurn := (0 + 1) % 2
        winner := none
        flags := { reverse := true, spawn := false, actor := 0, lastRoll := 2,
                   spawned := [true, false] } } :=
  ⟨rfl, rfl, C7_danger_cell_resets [1, 0] 0 2 2 [true, false] rfl rfl⟩

/-- C10: `_apply_roll` preserves the board range. With every input position in
0..7 and a roll in 1..6, every returned position is again in 0..7, and every
non-acting slot's position is either unchanged or reset to 0 by a capture. -/
theorem C10_board_range_preserved (positions : List Nat) (spawned : List Bool)
    (p roll n : Nat) (hb : ∀ i, positions.getD i 0 ≤ 7)
    (_h1 : 1 ≤ roll) (_h6 : roll ≤ 6) :
    (∀ i, (apply_roll positions p roll n spawned).positions.getD i 0 ≤ 7) ∧
    (∀ i, i ≠ p →
      (apply_roll positions p roll n spawned).positions.getD i 0 = positions.getD i 0 ∨
      (apply_roll positions p roll n spawned).positions.getD i 0 = 0) := by
  rcases apply_roll_positions_cases positions p roll n spawned with hc | hc | ⟨hc, hle⟩ | ⟨hc, hle⟩
  · constructor
    · intro i
      rw [hc]
      exact getD_set_le positions p 0 hb (by omega) i
    · intro i hip
      rw [hc]
      exact Or.inl (getD_set_ne positions 0 p i 0 (by omega))
  · constructor
    · intro i
      rw [hc]
      exact getD_set_le positions p (positions.getD p 0) hb (hb p) i
    · intro i hip
      rw [hc]
      exact Or.inl (getD_set_ne positions 0 p i (positions.getD p 0) (by omega))
  · constructor
    · intro i
      rw [hc]
      exact getD_set_le positions p (positions.getD p 0 + roll) hb hle i
    · intro i hip
      rw [hc]
      exact Or.inl (getD_set_ne positions 0 p i (positions.getD p 0 + roll) (by omega))
  · constructor
    · intro i
      rw [hc]
      rcases captureAll_getD spawned p n (positions.set p (positions.getD p 0 + roll)) i
        with h | h
      · rw [h]
        exact getD_set_le positions p (positions.getD p 0 + roll) hb hle i
      · omega
    · intro i hip
      rw [hc]
      rcases captureAll_getD spawned p n (positions.set p (positions.getD p 0 + roll)) i
        with h | h
      · rw [h, getD_set_ne positions 0 p i (positions.getD p 0 + roll) (by omega)]
        exact Or.inl rfl
      · exact Or.inr h

/-- Witness for C10: a capture move, `positions=[1,4], spawned=[true,true],
turn=0, roll=3` lands on the opponent at cell 4 and resets it to 0. -/
theorem C10_witness :
    (∀ i, [1, 4].getD i 0 ≤ 7) ∧ 1 ≤ 3 ∧ 3 ≤ 6 ∧
    ((∀ i, (apply_roll [1, 4] 0 3 2 [true, true]).positions.getD i 0 ≤ 7) ∧
     (∀ i, i ≠ 0 →
       (apply_roll [1, 4] 0 3 2 [true, true]).positions.getD i 0 = [1, 4].getD i 0 ∨
       (apply_roll [1, 4] 0 3 2 [true, true]).positions.getD i 0 = 0)) :=
  ⟨fun i => by match i with | 0 => decide | 1 => decide | (j+2) => simp [List.getD],
   by decide, by decide,
   C10_board_range_preserved [1, 4] [true, true] 0 3 2
     (fun i => by match i with | 0 => decide | 1 => decide | (j+2) => simp [List.getD])
     (by decide) (by decide)⟩

/-- C3: whenever a roll or timeout auto-advance leaves the match without a winner,
or a forfeit leaves more than one active player, and the active (occupied,
non-forfeited) slot set is non-empty, the forfeiture-skip loops of `roll_dice` /
`_auto_advance_if_needed` (check-then-increment over the engine's next turn) and
of `forfeit_match` (increment-then-check from the current turn) land on an index
in the active set, so the persisted current-turn index references an occupied,
non-forfeited slot. -/
theorem C3_turn_lands_on_active_slot (slots : List (Option Int)) (forfeited : List Int)
    (n a : Nat) (ha : a ∈ activeIndices slots forfeited n) :
    (∀ positions curr roll spawned,
      (apply_roll positions curr roll n spawned).winner = none →
      skipForfeit (activeIndices slots forfeited n) n
          (apply_roll positions curr roll n spawned).nextTurn ∈
        activeIndices slots forfeited n) ∧
    (∀ curr, curr < n →
      forfeitNewTurn (activeIndices slots forfeited n) n curr ∈
        activeIndices slots forfeited n) := by
  have han : a < n := activeIndices_lt slots forfeited n a ha
  have hn : 0 < n := by omega
  constructor
  · intro positions curr roll spawned hw
    rw [apply_roll_nextTurn_of_winner_none positions curr roll n spawned hw]
    exact skipForfeit_mem (activeIndices slots forfeited n) n ((curr + 1) % n) a
      (Nat.mod_lt _ hn) ha han
  · intro curr hcurr
    exact forfeitNewTurn_mem (activeIndices slots forfeited n) n curr hcurr a ha

/-- Witness for C3: a 3-player match with slot 1 forfeited; a non-winning roll by
slot 0 followed by the skip loop, and a forfeit-advance from slot 0, both land on
an active slot. -/
theorem C3_witness :
    (0 : Nat) ∈ activeIndices [some 1, some 2, some 3] [2] 3 ∧
    skipForfeit (activeIndices [some 1, some 2, some 3] [2] 3) 3
        (apply_roll [0, 0, 0] 0 3 3 [true, true, true]).nextTurn ∈
      activeIndices [some 1, some 2, some 3] [2] 3 ∧
    forfeitNewTurn (activeIndices [some 1, some 2, some 3] [2] 3) 3 0 ∈
      activeIndices [some 1, some 2, some 3] [2] 3 :=
  ⟨by decide,
   (C3_turn_lands_on_active_slot [some 1, some 2, some 3] [2] 3 0 (by decide)).1
     [0, 0, 0] 0 3 [true, true, true] (by decide),
   (C3_turn_lands_on_active_slot [some 1, some 2, some 3] [2] 3 0 (by decide)).2
     0 (by decide)⟩

/-- C1: for every successful settlement (stake rule found, winner slot holding a
positive-id occupant), the pot equals `entry_fee` times the number of occupied
slots with a positive user id, the winner is credited exactly
`min(winner_payout, pot)`, and the recorded match fee equals the pot minus that
payout. -/
theorem C1_pot_payout_fee (rule : StakeRule) (p1 p2 p3 mm fb : Option Int) (widx : Int)
    (o : SettleOutcome)
    (h : distribute_prize (some rule) p1 p2 p3 mm fb widx = Except.ok o) :
    o.prize =
      min rule.winnerPayout
        (rule.entryFee * ((activeIdsOf p1 p2 p3 rule.players).length : Int)) ∧
    o.systemFee =
      rule.entryFee * ((activeIdsOf p1 p2 p3 rule.players).length : Int) - o.prize := by
  obtain ⟨w, _, rfl⟩ := distribute_prize_ok rule p1 p2 p3 mm fb widx o h
  constructor <;> simp [settleOf, potOf]

/-- Witness for C1 at the spec's example: `entry_fee=5`, `winner_payout=8`, two
human occupied slots; pot 10, payout 8, fee 2. -/
theorem C1_witness :
    distribute_prize (some ⟨10, 5, 8, 2, "2 players"⟩) (some 1) (some 2) none none
        (some 99) 0 =
      Except.ok ⟨1, 8, 2, some 99⟩ ∧
    SettleOutcome.prize ⟨1, 8, 2, some 99⟩ =
      min 8 (5 * ((activeIdsOf (some 1) (some 2) none 2).length : Int)) ∧
    SettleOutcome.systemFee ⟨1, 8, 2, some 99⟩ =
      5 * ((activeIdsOf (some 1) (some 2) none 2).length : Int) -
        SettleOutcome.prize ⟨1, 8, 2, some 99⟩ :=
  ⟨rfl,
   C1_pot_payout_fee ⟨10, 5, 8, 2, "2 players"⟩ (some 1) (some 2) none none (some 99) 0
     ⟨1, 8, 2, some 99⟩ rfl⟩

/-- C9: the recorded system fee of a successful settlement is never negative,
and whenever the configured winner payout exceeds the collected pot the prize
is capped at the pot and the fee is exactly 0. -/
theorem C9_fee_nonneg (rule : StakeRule) (p1 p2 p3 mm fb : Option Int) (widx : Int)
    (o : SettleOutcome)
    (h : distribute_prize (some rule) p1 p2 p3 mm fb widx = Except.ok o) :
    0 ≤ o.systemFee ∧
    (rule.entryFee * ((activeIdsOf p1 p2 p3 rule.players).length : Int) <
        rule.winnerPayout →
      o.prize = rule.entryFee * ((activeIdsOf p1 p2 p3 rule.players).length : Int) ∧
      o.systemFee = 0) := by
  obtain ⟨w, _, rfl⟩ := distribute_prize_ok rule p1 p2 p3 mm fb widx o h
  constructor
  · simp only [settleOf, potOf]
    omega
  · intro hlt
    constructor <;> simp only [settleOf, potOf] <;> omega

/-- Witness for C9: an underfunded pot (`entry_fee=5`, one human payer,
`winner_payout=8`): prize capped at 5, fee 0. -/
theorem C9_witness :
    distribute_prize (some ⟨10, 5, 8, 2, "2 players"⟩) (some 1) (some (-1000)) none none
        (some 99) 0 =
      Except.ok ⟨1, 5, 0, none⟩ ∧
    (0 ≤ SettleOutcome.systemFee ⟨1, 5, 0, none⟩ ∧
     (5 * ((activeIdsOf (some 1) (some (-1000)) none 2).length : Int) < 8 →
       SettleOutcome.prize ⟨1, 5, 0, none⟩ =
         5 * ((activeIdsOf (some 1) (some (-1000)) none 2).length : Int) ∧
       SettleOutcome.systemFee ⟨1, 5, 0, none⟩ = 0)) :=
  ⟨rfl,
   C9_fee_nonneg ⟨10, 5, 8, 2, "2 players"⟩ (some 1) (some (-1000)) none none (some 99) 0
     ⟨1, 5, 0, none⟩ rfl⟩

/-- C2: on every successful settlement the fee is never credited to an account
occupying a slot of the match; when a fee is due it goes to the per-match
merchant if that account is no participant, to the global merchant when the
per-match one is a participant, and when both candidates are participants no
fee credit is made at all. -/
theorem C2_fee_never_to_participant (rule : StakeRule) (p1 p2 p3 mm fb : Option Int)
    (widx : Int) (o : SettleOutcome)
    (h : distribute_prize (some rule) p1 p2 p3 mm fb widx = Except.ok o) :
    (∀ r, o.feeRecipient = some r → r ∉ participantsOf p1 p2 p3 rule.players) ∧
    (∀ mid, mm = some mid → mid ≠ 0 → mid ∉ participantsOf p1 p2 p3 rule.players →
      0 < o.systemFee → o.feeRecipient = some mid) ∧
    (∀ mid fid, mm = some mid → mid ∈ participantsOf p1 p2 p3 rule.players →
      fb = some fid → fid ≠ 0 → fid ∉ participantsOf p1 p2 p3 rule.players →
      0 < o.systemFee → o.feeRecipient = some fid) ∧
    (∀ mid fid, mm = some mid → mid ∈ participantsOf p1 p2 p3 rule.players →
      fb = some fid → fid ∈ participantsOf p1 p2 p3 rule.players →
      o.feeRecipient = none) := by
  obtain ⟨w, _, rfl⟩ := distribute_prize_ok rule p1 p2 p3 mm fb widx o h
  refine ⟨?_, ?_, ?_, ?_⟩
  · intro r hr
    simp only [settleOf] at hr
    split_ifs at hr
    exact resolveFeeRecipient_not_mem mm fb (participantsOf p1 p2 p3 rule.players) r hr
  · intro mid hmm hmid0 hnotmem hfee
    subst hmm
    simp only [settleOf, potOf] at hfee ⊢
    have hres : resolveFeeRecipient (some mid) fb (participantsOf p1 p2 p3 rule.players) =
        some mid := by
      unfold resolveFeeRecipient pyOr pyTruthy
      simp [hmid0, hnotmem]
    rw [hres]
    simp [pyTruthy, hmid0, hfee]
  · intro mid fid hmm hmem hfb hfid0 hnotmem hfee
    subst hmm
    subst hfb
    simp only [settleOf, potOf] at hfee ⊢
    have hres : resolveFeeRecipient (some mid) (some fid)
        (participantsOf p1 p2 p3 rule.players) = some fid := by
      unfold resolveFeeRecipient pyOr pyTruthy
      by_cases hmid0 : mid = 0
      · simp [hmid0, hnotmem]
      · simp [hmid0, hmem, hnotmem, hfid0]
    rw [hres]
    simp [pyTruthy, hfid0, hfee]
  · intro mid fid hmm hmem hfb hfmem
    subst hmm
    subst hfb
    simp only [settleOf, potOf]
    have hres : resolveFeeRecipient (some mid) (some fid)
        (participantsOf p1 p2 p3 rule.players) = none := by
      unfold resolveFeeRecipient pyOr pyTruthy
      by_cases hmid0 : mid = 0
      · simp [hmid0, hfmem]
      · simp [hmid0, hmem, hfmem]
    rw [hres]
    simp [pyTruthy]

/-- Witness for C2: per-match merchant 2 is a participant, so the fee goes to
the global merchant 99, who is not seated in the match. -/
theorem C2_witness :
    distribute_prize (some ⟨10, 5, 8, 2, "2 players"⟩) (some 1) (some 2) none (some 2)
        (some 99) 0 =
      Except.ok ⟨1, 8, 2, some 99⟩ ∧
    (∀ r, (some 99 : Option Int) = some r → r ∉ participantsOf (some 1) (some 2) none 2) ∧
    ((2 : Int) ∈ participantsOf (some 1) (some 2) none 2) ∧
    ((99 : Int) ∉ participantsOf (some 1) (some 2) none 2) :=
  ⟨rfl,
   fun r hr =>
     (C2_fee_never_to_participant ⟨10, 5, 8, 2, "2 players"⟩ (some 1) (some 2) none
       (some 2) (some 99) 0 ⟨1, 8, 2, some 99⟩ rfl).1 r hr,
   by decide, by decide⟩

/-- C4 counterexample: a two-player ACTIVE match with slots `[1, 2]`, player 2
forfeited, and stored current turn 1. Caller 1's slot index is 0, which differs
from the stored current turn, yet the pre-roll gate of `roll_dice` retargets the
turn to 0, commits it, and lets the roll proceed (`RollGate.ok`) instead of
rejecting it, so the request is neither rejected nor state-preserving. -/
theorem C4_counterexample :
    rollTurnCheck (some 1) (some 2) none [2] 2 (some 1) 1 = RollGate.ok 0 0 ∧
    pyIndex [some 1, some 2, none] 1 = 0 ∧ (0 : Nat) ≠ 1 := by
  decide

/-- C4 amended: a roll request on an ACTIVE match by a participant whose slot
index differs from the effective current turn — the stored turn when it lies in
the active set, otherwise the lowest active index — is rejected as out of turn,
and the persisted current-turn index equals that effective turn (so the record
is unchanged exactly when the stored turn was already in the active set). -/
theorem C4_out_of_turn_rejected (p1 p2 p3 : Option Int) (forfeited : List Int) (n : Nat)
    (storedTurn : Option Nat) (callerId : Int)
    (hact : activeIndices [p1, p2, p3] forfeited n ≠ [])
    (hmem : some callerId ∈ [p1, p2, p3])
    (hne : pyIndex [p1, p2, p3] callerId ≠
      (if storedTurn.getD 0 ∈ activeIndices [p1, p2, p3] forfeited n then storedTurn.getD 0
       else (activeIndices [p1, p2, p3] forfeited n).headD 0)) :
    rollTurnCheck p1 p2 p3 forfeited n storedTurn callerId =
      RollGate.errNotYourTurn
        (if storedTurn.getD 0 ∈ activeIndices [p1, p2, p3] forfeited n then
          storedTurn.getD 0
         else (activeIndices [p1, p2, p3] forfeited n).headD 0) := by
  simp only [rollTurnCheck]
  rw [if_neg hact, if_neg (not_not_intro hmem)]
  exact if_pos hne

/-- Witness for the amended C4: slots `[1, 2]`, nobody forfeited, stored turn 0
in the active set; caller 2 (slot 1) is rejected and the stored turn persists. -/
theorem C4_witness :
    activeIndices [some 1, some 2, none] [] 2 ≠ [] ∧
    (some 2 : Option Int) ∈ [some 1, some 2, none] ∧
    rollTurnCheck (some 1) (some 2) none [] 2 (some 0) 2 =
      RollGate.errNotYourTurn
        (if (some (0 : Nat)).getD 0 ∈ activeIndices [some 1, some 2, none] [] 2 then
          (some (0 : Nat)).getD 0
         else (activeIndices [some 1, some 2, none] [] 2).headD 0) :=
  ⟨by decide, by decide,
   C4_out_of_turn_rejected (some 1) (some 2) none [] 2 (some 0) 2 (by decide) (by decide)
     (by decide)⟩

/-- C5 counterexample: a WAITING 3-player match `(p1=1, p2=2, p3=empty)` with
matching stake passes the join scan for caller 2, who already occupies slot 2;
the seating step then puts caller 2 into slot 3 as well, so `create_or_join`
seats the caller into a match the caller already occupies. -/
theorem C5_counterexample :
    joinFilter ⟨MStatus.waiting, 10, 3, some 1, some 2, none⟩ 10 3 2 = true ∧
    joinSeat ⟨MStatus.waiting, 10, 3, some 1, some 2, none⟩ 3 2 =
      some ⟨MStatus.active, 10, 3, some 1, some 2, some 2⟩ := by
  decide

/-- C5 amended: every match selected by the join scan is WAITING with the
caller's stake amount and player count and has an empty slot, and its first
slot does not belong to the caller; for two-player matches no occupied slot
belongs to the caller (the second slot is empty), but for three-player matches
the caller may already occupy the second slot. -/
theorem C5_join_scan_properties (m : WaitingMatch) (stake : Int) (nPlayers : Nat)
    (callerId : Int) (h : joinFilter m stake nPlayers callerId = true) :
    m.status = MStatus.waiting ∧ m.stakeAmount = stake ∧ m.numPlayers = nPlayers ∧
    m.p1 ≠ some callerId ∧ (m.p2 = none ∨ m.p3 = none) ∧
    (nPlayers = 2 → m.p2 = none) := by
  unfold joinFilter at h
  simp only [Bool.and_eq_true, decide_eq_true_eq] at h
  obtain ⟨⟨⟨⟨hst, hsa⟩, hnp⟩, hp1⟩, hslot⟩ := h
  refine ⟨hst, hsa, hnp, sqlNeq_true hp1, ?_, ?_⟩
  · split_ifs at hslot with h2
    · exact Or.inl (by simpa using hslot)
    · simpa [decide_eq_true_eq] using hslot
  · intro h2
    rw [if_pos h2] at hslot
    simpa using hslot

/-- Witness for the amended C5: a two-player WAITING match created by player 1,
scanned by caller 2. -/
theorem C5_witness :
    joinFilter ⟨MStatus.waiting, 10, 2, some 1, none, none⟩ 10 2 2 = true ∧
    (WaitingMatch.status ⟨MStatus.waiting, 10, 2, some 1, none, none⟩ = MStatus.waiting ∧
     WaitingMatch.stakeAmount ⟨MStatus.waiting, 10, 2, some 1, none, none⟩ = 10 ∧
     WaitingMatch.numPlayers ⟨MStatus.waiting, 10, 2, some 1, none, none⟩ = 2 ∧
     WaitingMatch.p1 ⟨MStatus.waiting, 10, 2, some 1, none, none⟩ ≠ some 2 ∧
     (WaitingMatch.p2 ⟨MStatus.waiting, 10, 2, some 1, none, none⟩ = none ∨
      WaitingMatch.p3 ⟨MStatus.waiting, 10, 2, some 1, none, none⟩ = none) ∧
     ((2 : Nat) = 2 →
       WaitingMatch.p2 ⟨MStatus.waiting, 10, 2, some 1, none, none⟩ = none)) :=
  ⟨by decide,
   C5_join_scan_properties ⟨MStatus.waiting, 10, 2, some 1, none, none⟩ 10 2 2 (by decide)⟩

/-- C8: whenever the autonomous bot roll loop issues a roll for a match, at
least one slot of that match holds a positive user id outside the agent pool
(a human is present), and the seat at the match's current turn holds an
agent-pool account. -/
theorem C8_bot_needs_human (status : MStatus) (p1 p2 p3 : Option Int)
    (numPlayers : Nat) (currentTurn : Option Int)
    (h : botActs status p1 p2 p3 numPlayers currentTurn = true) :
    (∃ u : Int, some u ∈ [p1, p2, p3].take numPlayers ∧ 0 < u ∧ u ∉ AGENT_USER_IDS) ∧
    (∃ u : Int,
      ([p1, p2, p3].take numPlayers).getD (currentTurn.getD 0).toNat none = some u ∧
      u ∈ AGENT_USER_IDS) := by
  unfold botActs at h
  dsimp only at h
  split_ifs at h with h1 h2 h3 h4
  constructor
  · rw [Bool.not_eq_true, Bool.not_eq_false', List.any_eq_true] at h2
    obtain ⟨ou, hou, hpred⟩ := h2
    cases ou with
    | none => exact absurd hpred (by simp)
    | some v =>
      simp only [Bool.and_eq_true, decide_eq_true_eq] at hpred
      refine ⟨v, hou, hpred.1, ?_⟩
      simpa using hpred.2
  · revert h
    split
    · rename_i u hu
      intro h
      exact ⟨u, hu, by simpa using h⟩
    · intro h
      exact absurd h (by simp)

/-- Witness for C8: an ACTIVE match with human 5 in slot 1 and agent 10001 in
slot 2, whose current turn is the agent's seat. -/
theorem C8_witness :
    (∃ u : Int, some u ∈ [some 5, some 10001, none].take 2 ∧ 0 < u ∧
      u ∉ AGENT_USER_IDS) ∧
    (∃ u : Int,
      (([some 5, some 10001, none] : List (Option Int)).take 2).getD
          ((some (1 : Int)).getD 0).toNat none = some u ∧
      u ∈ AGENT_USER_IDS) :=
  C8_bot_needs_human MStatus.active (some 5) (some 10001) none 2 (some 1) (by decide)

end SevenGrid
